import Mathlib

/-!
Verification development for the music_migrator repository.

The Python sources under `src/services/` are shallowly embedded here:
strings are `List Char`, Python `None`-able values are `Option`,
provider calls that may raise become `Except`-valued parameters, and
stateful operations return their new state together with the list of
provider mutation calls they issued.
-/

set_option maxRecDepth 4000

/-- Strings of the embedded Python code are lists of characters. -/
abbrev Str := List Char

/-! ## Python string primitives -/

/-- Characters matched by Python's regex class `\s` (ASCII range). -/
def isPySpace (c : Char) : Bool :=
  c == ' ' || c == '\t' || c == '\n' || c == '\r' ||
  c == Char.ofNat 11 || c == Char.ofNat 12

/-- Characters matched by Python's regex class `\w` (ASCII range). -/
def isWordChar (c : Char) : Bool :=
  c.isAlphanum || c == '_'

/-- One step of `re.sub(r"\s+", " ", s)`: collapse each maximal whitespace
run to a single space.  The boolean argument records whether the previous
character was whitespace. -/
def squeezeAux : Bool → Str → Str
  | _, [] => []
  | prevSpace, c :: cs =>
    if isPySpace c then
      (if prevSpace then [] else [' ']) ++ squeezeAux true cs
    else
      c :: squeezeAux false cs

/-- Embedding of `re.sub(r"\s+", " ", s)`. -/
def squeezeWs (s : Str) : Str := squeezeAux false s

/-- Embedding of Python `str.strip()` (whitespace on both ends). -/
def pyStripWs (s : Str) : Str :=
  ((s.dropWhile isPySpace).reverse.dropWhile isPySpace).reverse

/-- Embedding of the `_n` normalizer used by both scorers:
`s.lower()`, then collapse internal whitespace, then trim.  A missing or
empty string normalizes to the empty string (`if not s: return ""`). -/
def pyNorm (s : Option Str) : Str :=
  match s with
  | none => []
  | some s => pyStripWs (squeezeWs (s.map Char.toLower))

/-- Does `n` start `h`?  Helper for the substring test. -/
def headMatch : Str → Str → Bool
  | [], _ => true
  | _ :: _, [] => false
  | a :: as, b :: bs => a == b && headMatch as bs

/-- Embedding of Python's `n in h` substring test
(the empty string occurs in every string, as in Python). -/
def occursIn : Str → Str → Bool
  | n, [] => headMatch n []
  | n, h@(_ :: t) => headMatch n h || occursIn n t

/-- Maximal runs of word characters, i.e. the non-empty pieces produced by
`re.split(r"[^\w]+", s)`.  `acc` accumulates the current run reversed. -/
def wordRunsAux (acc : Str) : Str → List Str
  | [] => if acc.isEmpty then [] else [acc.reverse]
  | c :: cs =>
    if isWordChar c then wordRunsAux (c :: acc) cs
    else (if acc.isEmpty then [] else [acc.reverse]) ++ wordRunsAux [] cs

/-- Token list of a normalized track string:
`[t for t in re.split(r"[^\w]+", ntrack) if t]`. -/
def wordRuns (s : Str) : List Str := wordRunsAux [] s

/-- Embedding of `", ".join(names)`. -/
def joinCommaSpace : List Str → Str
  | [] => []
  | [s] => s
  | s :: rest => s ++ [',', ' '] ++ joinCommaSpace rest

/-- Python truthiness of an `Optional[int]` (`None` and `0` are falsy). -/
def pyTruthyInt : Option Int → Bool
  | none => false
  | some n => n != 0

/-- Python truthiness of an `Optional[str]` (`None` and `""` are falsy). -/
def pyTruthyStr : Option Str → Bool
  | none => false
  | some s => !s.isEmpty

/-! ## The TIDAL candidate scorer (`TidalLibrary.score_candidate`) -/

/-- A simplified search item as produced by `TidalUserClient.search_tracks`:
`{id, title, artists: [{name}]}`.  Artist names are the non-`None` names
(the scorer drops `None` names before joining). -/
structure TidalItem where
  id : Option Int
  title : Option Str
  artists : List Str
deriving DecidableEq

/-- `TidalLibrary.PENAL_WORDS`. -/
def PENAL_WORDS : List Str :=
  ["cover".toList, "karaoke".toList, "remix".toList,
   "instrumental".toList, "live".toList]

/-- Embedding of `TidalLibrary.score_candidate` (tidal_library.py:123-157).
The sequential `score += ...` statements become chained `let` bindings. -/
def tidal_score_candidate (track : Str) (artist : Option Str) (item : TidalItem) : Int :=
  let title := pyNorm item.title
  let channel := pyNorm (some (joinCommaSpace item.artists))
  let ntrack := pyNorm (some track)
  let nartist := pyNorm artist
  let score : Int := 0
  let score :=
    if !ntrack.isEmpty && occursIn ntrack title then score + 55
    else
      score + min 35 (7 * ((wordRuns ntrack).countP
        (fun t => !t.isEmpty && occursIn t title) : Int))
  let score :=
    if !nartist.isEmpty && occursIn nartist title then score + 20 else score
  let score :=
    if !nartist.isEmpty && occursIn nartist channel then score + 20 else score
  let score := PENAL_WORDS.foldl
    (fun sc w =>
      if occursIn w title && (ntrack.isEmpty || !occursIn w ntrack)
      then sc - 8 else sc)
    score
  max 0 (min 100 score)

/-! ## The YouTube candidate scorer (`YouTubeMusicLibrary.score_candidate`) -/

/-- The `snippet`-level fields of a YouTube search item used by the scorer. -/
structure YtItem where
  title : Option Str
  channelTitle : Option Str
  categoryId : Option Str
deriving DecidableEq

/-- `YouTubeMusicLibrary.PENAL_WORDS` (youtube_library.py:61) — note it has
four words only; `"live"` is absent. -/
def YT_PENAL_WORDS : List Str :=
  ["cover".toList, "karaoke".toList, "remix".toList, "instrumental".toList]

/-- Embedding of `YouTubeMusicLibrary._contains`:
`needle in haystack if needle and haystack else False`. -/
def ytContains (haystack needle : Str) : Bool :=
  if !needle.isEmpty && !haystack.isEmpty then occursIn needle haystack else false

/-- Embedding of `YouTubeMusicLibrary.score_candidate`
(youtube_library.py:165-202). -/
def yt_score_candidate (track : Str) (artist : Option Str) (item : YtItem) : Int :=
  let title := pyNorm item.title
  let channel := pyNorm item.channelTitle
  let ntrack := pyNorm (some track)
  let nartist := pyNorm artist
  let score : Int := 0
  let score :=
    if !ntrack.isEmpty && ytContains title ntrack then score + 55
    else if !ntrack.isEmpty then
      score + min 35 (7 * ((wordRuns ntrack).countP
        (fun t => occursIn t title) : Int))
    else score
  let score :=
    if !nartist.isEmpty && ytContains title nartist then score + 20 else score
  let score :=
    if !nartist.isEmpty && ytContains channel nartist then score + 15 else score
  let score := YT_PENAL_WORDS.foldl
    (fun sc w =>
      if occursIn w title && (ntrack.isEmpty || !occursIn w ntrack)
      then sc - 10 else sc)
    score
  let score := if item.categoryId == some "10".toList then score + 5 else score
  max 0 (min 100 score)

/-! ## Stable descending sort — Python `list.sort(key=..., reverse=True)`

Python sort is stable; with `reverse=True` elements are ordered by
descending key and ties keep their original relative order.  The unique
list with those properties is computed by left-to-right insertion where a
new element is placed before the first element of strictly smaller key. -/

/-- Insert `x` into `acc` before the first element of strictly smaller key. -/
def insDesc {α : Type} (key : α → Int) (x : α) : List α → List α
  | [] => [x]
  | y :: ys => if key y < key x then x :: y :: ys else y :: insDesc key x ys

/-- Stable sort by descending key. -/
def sortDesc {α : Type} (key : α → Int) (l : List α) : List α :=
  l.foldl (fun acc x => insDesc key x acc) []

/-! ## The TIDAL resolver
(`TidalLibrary.search_tracks_with_scores` / `find_best_match_with_score`) -/

/-- The display info returned by `find_best_match_with_score`:
`{id, title, artists: ", ".join(names)}`. -/
structure TInfo where
  id : Option Int
  title : Option Str
  artistsText : Str
deriving DecidableEq

/-- Pure part of `search_tracks_with_scores`: attach `_score` to every item
returned by the provider search and sort descending (stable). -/
def tidal_with_scores (track : Str) (artist : Option Str)
    (items : List TidalItem) : List (Int × TidalItem) :=
  sortDesc (fun p => p.1)
    (items.map fun it => (tidal_score_candidate track artist it, it))

/-- Pure part of `find_best_match_with_score`: `(track_id, score, info)` of
the top-scored item, or `(None, 0, None)` when the search returned nothing. -/
def tidal_best_of (track : Str) (artist : Option Str)
    (items : List TidalItem) : Option Int × Int × Option TInfo :=
  match tidal_with_scores track artist items with
  | [] => (none, 0, none)
  | b :: _ => (b.2.id, b.1, some ⟨b.2.id, b.2.title, joinCommaSpace b.2.artists⟩)

/-- Errors the embedded provider layer can raise: `ValueError` from
`search_tracks` when neither query part is given, `AttributeError` from
attribute access on a non-dict, and any error raised by the provider
client (network, rate limit, unsupported API signature: the
`RuntimeError`s of `TidalUserClient.search_tracks`). -/
inductive PyErr
  | valueError
  | attributeError
  | providerError
deriving DecidableEq

/-- Embedding of `" - ".join(parts)`. -/
def joinDashSep : List Str → Str
  | [] => []
  | [s] => s
  | s :: rest => s ++ [' ', '-', ' '] ++ joinDashSep rest

/-- The truthy elements of `[track, artist]`, as used by
`TidalLibrary.search_tracks` to build the query. -/
def queryParts (track artist : Option Str) : List Str :=
  (match track with
   | some t => if t.isEmpty then [] else [t]
   | none => []) ++
  (match artist with
   | some a => if a.isEmpty then [] else [a]
   | none => [])

/-- Embedding of `TidalLibrary.search_tracks` over an abstract provider
search `search query limit`; raises `ValueError` when both parts are falsy. -/
def tidal_search_tracks (search : Str → Nat → Except PyErr (List TidalItem))
    (track artist : Option Str) (limit : Nat) : Except PyErr (List TidalItem) :=
  match queryParts track artist with
  | [] => .error .valueError
  | parts => search (joinDashSep parts) limit

/-- Embedding of `TidalLibrary.find_best_match_with_score`. -/
def tidal_find_best_match_with_score
    (search : Str → Nat → Except PyErr (List TidalItem))
    (track : Str) (artist : Option Str) (limit : Nat) :
    Except PyErr (Option Int × Int × Option TInfo) :=
  match tidal_search_tracks search (some track) artist limit with
  | .error e => .error e
  | .ok items => .ok (tidal_best_of track artist items)

/-! ## The planners (`plan_tracks_by_metadata`) -/

/-- A source track as consumed by the planners:
`{track: str, artist: optional str}`. -/
structure SongMeta where
  track : Option Str
  artist : Option Str
deriving DecidableEq

/-- A planned item as produced by `TidalLibrary.plan_tracks_by_metadata`. -/
structure TidalPlanItem where
  track : Str
  artist : Option Str
  tidal_id : Option Int
  score : Int
  low_confidence : Bool
  title : Option Str
  artists : Option Str
deriving DecidableEq

/-- Embedding of `TidalLibrary.plan_tracks_by_metadata`
(tidal_library.py:261-290).  The provider search is a parameter; a raised
provider error propagates (there is no `try`/`except` in the source), and
a song whose stripped title is empty is skipped (`continue`). -/
def tidal_plan_tracks_by_metadata
    (search : Str → Nat → Except PyErr (List TidalItem))
    (limit : Nat) (min_score_flag : Int) :
    List SongMeta → Except PyErr (List TidalPlanItem)
  | [] => .ok []
  | s :: rest =>
    let track := pyStripWs (s.track.getD [])
    let artistStripped := pyStripWs (s.artist.getD [])
    let artist : Option Str :=
      if artistStripped.isEmpty then none else some artistStripped
    if track.isEmpty then
      tidal_plan_tracks_by_metadata search limit min_score_flag rest
    else
      match tidal_find_best_match_with_score search track artist limit with
      | .error e => .error e
      | .ok r =>
        match tidal_plan_tracks_by_metadata search limit min_score_flag rest with
        | .error e => .error e
        | .ok tail =>
          .ok ({ track := track, artist := artist, tidal_id := r.1,
                 score := r.2.1,
                 low_confidence := decide (r.2.1 < min_score_flag),
                 title := r.2.2.bind TInfo.title,
                 artists := r.2.2.map TInfo.artistsText } :: tail)

/-- Display info of a YouTube resolution (`{id, title, channel, url}`). -/
structure YtInfo where
  id : Option Str
  title : Option Str
  channel : Option Str
  url : Option Str
deriving DecidableEq

/-- A planned item as produced by `YouTubeMusicLibrary.plan_tracks_by_metadata`. -/
structure YtPlanItem where
  track : Str
  artist : Option Str
  videoId : Option Str
  score : Option Int
  low_confidence : Bool
  title : Option Str
  channel : Option Str
  url : Option Str
deriving DecidableEq

/-- Embedding of `YouTubeMusicLibrary.plan_tracks_by_metadata`
(youtube_library.py:246-286).  The per-track resolution —
`find_best_match_with_score` for `pick_strategy="best"`, the raw scored
search for `"first"` — is abstracted as `resolve track artist limit`,
since both produce one `(videoId, score, info)` triple per track.  A song
with a falsy (`None` or empty) title is skipped (`continue`). -/
def yt_plan_tracks_by_metadata
    (resolve : Str → Option Str → Nat → Option Str × Int × Option YtInfo)
    (limit : Nat) (return_scores : Bool) (min_score_flag : Int) :
    List SongMeta → List YtPlanItem
  | [] => []
  | s :: rest =>
    if pyTruthyStr s.track then
      let t := s.track.getD []
      let r := resolve t s.artist limit
      { track := t, artist := s.artist, videoId := r.1,
        score := if return_scores then some r.2.1 else none,
        low_confidence := decide (r.2.1 < min_score_flag),
        title := r.2.2.bind YtInfo.title,
        channel := r.2.2.bind YtInfo.channel,
        url := r.2.2.bind YtInfo.url } ::
      yt_plan_tracks_by_metadata resolve limit return_scores min_score_flag rest
    else
      yt_plan_tracks_by_metadata resolve limit return_scores min_score_flag rest

/-! ## Playlist state and the insertion layer -/

/-- A TIDAL playlist: provider handle reduced to its display title and its
current track entries (a provider item's `id` may be missing). -/
structure TPlaylist where
  title : Option Str
  tracks : List (Option Int)
deriving DecidableEq

/-- Embedding of `TidalLibrary.list_playlist_track_ids`: collect the
non-`None` ids. -/
def list_playlist_track_ids (pl : TPlaylist) : List Int :=
  pl.tracks.filterMap id

/-- Embedding of `TidalUserClient._dedupe_preserve_order` via an explicit
`seen` accumulator. -/
def dedupPOAux (seen : List Int) : List Int → List Int
  | [] => []
  | x :: xs =>
    if seen.elem x then dedupPOAux seen xs
    else x :: dedupPOAux (x :: seen) xs

/-- Duplicate removal keeping first occurrences
(`TidalUserClient._dedupe_preserve_order`). -/
def dedupPO (l : List Int) : List Int := dedupPOAux [] l

/-- Batches of at most 100 ids, as sent by
`TidalUserClient.add_tracks_to_playlist` (`BATCH_SIZE = 100`). -/
def chunks100 : List Int → List (List Int)
  | [] => []
  | x :: xs => (x :: xs.take 99) :: chunks100 (xs.drop 99)
termination_by l => l.length
decreasing_by
  simp only [List.length_drop, List.length_cons]
  omega

/-- Embedding of `TidalUserClient.add_tracks_to_playlist`: returns the new
playlist contents and the list of provider mutation calls (`pl.add(chunk)`
per batch).  Ids are already `int`s, so normalization keeps them all. -/
def tidal_client_add_tracks (contents : List (Option Int)) (ids : List Int) :
    List (Option Int) × List (List Int) :=
  if ids.isEmpty then (contents, [])
  else
    let norm := dedupPO ids
    (contents ++ norm.map some, chunks100 norm)

/-- Embedding of `TidalLibrary.add_tracks_by_ids` (tidal_library.py:241-256).
Returns the playlist after the call and the provider mutation calls made. -/
def tidal_add_tracks_by_ids (pl : TPlaylist) (track_ids : List (Option Int))
    (avoid_duplicates : Bool) : TPlaylist × List (List Int) :=
  let ids := track_ids.filterMap id
  if ids.isEmpty then (pl, [])
  else
    let ids2 :=
      if avoid_duplicates then
        let existing := list_playlist_track_ids pl
        ids.filter (fun t => !existing.elem t)
      else ids
    if ids2.isEmpty then (pl, [])
    else
      let r := tidal_client_add_tracks pl.tracks ids2
      ({ pl with tracks := r.1 }, r.2)

/-- A YouTube playlist: its title and its current items (a playlist item's
`snippet.resourceId.videoId` may be missing). -/
structure YPlaylist where
  title : Option Str
  items : List (Option Str)
deriving DecidableEq

/-- Embedding of `YouTubeMusicLibrary.list_playlist_video_ids`. -/
def list_playlist_video_ids (pl : YPlaylist) : List Str :=
  pl.items.filterMap id

/-- A Python value appearing in `add_videos`' `video_ids` argument: either a
plain string (what every caller in this repository passes) or a dict whose
only accessed key is `"videoId"`. -/
inductive YVal where
  | pystr (s : Str)
  | pydict (videoId : Option Str)
deriving DecidableEq

/-- Embedding of `v.get("videoId")`: attribute access on a plain string
raises `AttributeError` (strings have no `get`). -/
def yvalGetVideoId : YVal → Except PyErr (Option Str)
  | .pystr _ => .error .attributeError
  | .pydict v => .ok v

/-- The list comprehension of `add_videos` (youtube_library.py:433),
evaluated left to right; the first non-dict element raises. -/
def yt_build_to_add (existing : List Str) : List YVal → Except PyErr (List Str)
  | [] => .ok []
  | v :: vs =>
    match yvalGetVideoId v with
    | .error e => .error e
    | .ok vid =>
      if pyTruthyStr vid && !existing.elem (vid.getD []) then
        match yt_build_to_add existing vs with
        | .error e => .error e
        | .ok rest => .ok (vid.getD [] :: rest)
      else
        yt_build_to_add existing vs

/-- Result of `YouTubeMusicLibrary.add_videos`: the Python return value (or
the exception), the playlist contents afterwards, and the provider mutation
calls issued (`client.add_videos_to_playlist`, batched as one call). -/
structure YtAddResult where
  outcome : Except PyErr (List Str)
  playlist : YPlaylist
  calls : List (List Str)

/-- Embedding of `YouTubeMusicLibrary.add_videos`
(youtube_library.py:425-436). -/
def yt_add_videos (pl : YPlaylist) (video_ids : List YVal)
    (avoid_duplicates : Bool) : YtAddResult :=
  let existing := if avoid_duplicates then list_playlist_video_ids pl else []
  match yt_build_to_add existing video_ids with
  | .error e => ⟨.error e, pl, []⟩
  | .ok toAdd =>
    if toAdd.isEmpty then ⟨.ok [], pl, []⟩
    else ⟨.ok toAdd, { pl with items := pl.items ++ toAdd.map some }, [toAdd]⟩

/-! ## Playlist lookup / creation -/

/-- An entry of `TidalUserClient.list_all_user_playlists()`: the display
title plus the raw provider playlist stored under key `"p"`
(`get_or_create_playlist` returns `p.get("p", None)`). -/
structure TPlMeta where
  title : Option Str
  p : Option TPlaylist
deriving DecidableEq

/-- Outcome of a get-or-create call: an existing playlist or a newly
created one. -/
inductive TgocResult where
  | got (pl : Option TPlaylist)
  | created (title : Str)
deriving DecidableEq

/-- Embedding of `title.strip().lower()`. -/
def tidalTitleNorm (s : Str) : Str := (pyStripWs s).map Char.toLower

/-- Embedding of `TidalLibrary.get_or_create_playlist`
(tidal_library.py:217-227): first playlist whose trimmed, lowercased title
equals the trimmed, lowercased argument; otherwise create. -/
def tidal_get_or_create_playlist (playlists : List TPlMeta) (title : Str) :
    TgocResult :=
  match playlists.find?
      (fun q => tidalTitleNorm (q.title.getD []) == tidalTitleNorm title) with
  | some q => .got q.p
  | none => .created title

/-- A page entry of `client.get_my_playlists`: only `snippet.title` is
inspected by `get_or_create_playlist`. -/
structure YtPlMeta where
  title : Option Str
deriving DecidableEq

/-- Outcome of the YouTube get-or-create call. -/
inductive YgocResult where
  | got (pl : YtPlMeta)
  | created (title : Str)
deriving DecidableEq

/-- The pagination loop of `YouTubeMusicLibrary.get_or_create_playlist`
(youtube_library.py:398-406): scan each page in order for an item with
`snippet.title == title` (exact, case-sensitive comparison). -/
def yt_find_pl_loop (title : Str) : List (List YtPlMeta) → Option YtPlMeta
  | [] => none
  | page :: rest =>
    match page.find? (fun it => it.title == some title) with
    | some it => some it
    | none => yt_find_pl_loop title rest

/-- Embedding of `YouTubeMusicLibrary.get_or_create_playlist`
(youtube_library.py:396-408); `pages` is the sequence of pages the client
would return. -/
def yt_get_or_create_playlist (pages : List (List YtPlMeta)) (title : Str) :
    YgocResult :=
  match yt_find_pl_loop title pages with
  | some it => .got it
  | none => .created title

/-! ## The playlist reconciler (`TidalPlaylistsSynchronizer`) -/

/-- Modelled from the spec: `TidalLibrary.get_playlist_by_title`, which
`TidalPlaylistsSynchronizer.sync_single_playlist` calls but which is not
defined anywhere under the repository sources.  Spec §4.6: "Looks up a
playlist of the given name (case-insensitive exact match) in both
accounts"; absent means `None`. -/
def get_playlist_by_title (playlists : List TPlaylist) (title : Str) :
    Option TPlaylist :=
  playlists.find?
    (fun p => (p.title.getD []).map Char.toLower == title.map Char.toLower)

/-- Result of one `sync_single_playlist` run over a pair of playlists:
both playlists afterwards and the provider mutation calls per account. -/
structure SyncResult where
  plA : TPlaylist
  plB : TPlaylist
  callsA : List (List Int)
  callsB : List (List Int)

/-- Embedding of the body of
`TidalPlaylistsSynchronizer.sync_single_playlist`
(tidal_playlist_sync.py:99-134), after both lookups succeeded. -/
def sync_single_core (avoid_duplicates : Bool) (plA plB : TPlaylist) :
    SyncResult :=
  let idsA := (list_playlist_track_ids plA).toFinset
  let idsB := (list_playlist_track_ids plB).toFinset
  if idsA = ∅ ∧ idsB = ∅ then ⟨plA, plB, [], []⟩
  else
    let union := idsA ∪ idsB
    let toAddA := union \ idsA
    let toAddB := union \ idsB
    let ra :=
      if toAddA ≠ ∅ then
        tidal_add_tracks_by_ids plA
          ((toAddA.sort (· ≤ ·)).map some) avoid_duplicates
      else (plA, [])
    let rb :=
      if toAddB ≠ ∅ then
        tidal_add_tracks_by_ids plB
          ((toAddB.sort (· ≤ ·)).map some) avoid_duplicates
      else (plB, [])
    ⟨ra.1, rb.1, ra.2, rb.2⟩

/-- Embedding of `sync_single_playlist` including the lookups: a missing
playlist on either side is a no-op. -/
def sync_single_playlist (avoid_duplicates : Bool)
    (accountA accountB : List TPlaylist) (title : Str) : Option SyncResult :=
  match get_playlist_by_title accountA title,
        get_playlist_by_title accountB title with
  | some a, some b => some (sync_single_core avoid_duplicates a b)
  | _, _ => none

/-! ## Per-item routing in the migrators -/

/-- The `PlannedItem` dataclass of music_migrator_tidal.py. -/
structure TMigPlanned where
  track : Str
  artist : Option Str
  tidal_id : Option Int
  score : Int
  title : Option Str
  artists : Option Str
deriving DecidableEq

/-- The module-level constant `PASAR_CANCIONES = "a"`
(music_migrator_tidal.py:43). -/
def PASAR_CANCIONES : Str := ['a']

/-- What happens to one planned item inside
`SpotifyToTidalMigrator.migrate_playlist`. -/
inductive TDecision where
  | addNow (id : Int)
  | addNowLow (id : Int)
  | skipLogged
deriving DecidableEq

/-- Per-item routing of `SpotifyToTidalMigrator.migrate_playlist`
(music_migrator_tidal.py:257-325).  The high-confidence branch
(`item.tidal_id and item.score >= self.score_threshold`) inserts at once.
Otherwise, because the module constant `PASAR_CANCIONES` is truthy, the
interactive prompt is never reached and `action` is always `"a"`; the
`"u"`/`"l"` prompt branches are therefore unreachable and a falsy id falls
through to the skip log. -/
def tidal_item_decision (score_threshold : Int) (it : TMigPlanned) : TDecision :=
  if pyTruthyInt it.tidal_id && decide (score_threshold ≤ it.score) then
    .addNow (it.tidal_id.getD 0)
  else
    let action := PASAR_CANCIONES
    if action == ['a'] && pyTruthyInt it.tidal_id then
      .addNowLow (it.tidal_id.getD 0)
    else
      .skipLogged

/-- The id an item's decision queues for insertion, if any. -/
def tidal_queued_id : TDecision → Option Int
  | .addNow i => some i
  | .addNowLow i => some i
  | .skipLogged => none

/-- The `PlannedItem` dataclass of music_transfer.py. -/
structure YMigPlanned where
  track : Str
  artist : Option Str
  video_id : Option Str
  score : Int
  title : Option Str
  channel : Option Str
  url : Option Str
deriving DecidableEq

/-- Routing of one planned item in
`SpotifyToYouTubeMigrator.migrate_playlist` (music_transfer.py:169-180):
either the no-interaction auto-insert branch, or the interactive prompt. -/
inductive YRoute where
  | autoAdd (v : Str)
  | interactive
deriving DecidableEq

/-- Embedding of the branch condition
`if item.video_id and item.score >= self.score_threshold`. -/
def yt_item_route (score_threshold : Int) (it : YMigPlanned) : YRoute :=
  if pyTruthyStr it.video_id && decide (score_threshold ≤ it.score) then
    .autoAdd (it.video_id.getD [])
  else
    .interactive

/-! ## Auxiliary predicates used in claim statements -/

/-- Is a routing decision the high-confidence immediate-insert branch? -/
def tdecisionIsAddNow : TDecision → Bool
  | .addNow _ => true
  | _ => false

/-- Is a YouTube route the no-interaction auto-insert branch? -/
def yrouteIsAuto : YRoute → Bool
  | .autoAdd _ => true
  | .interactive => false

/-! ## Score components named by the scorer claims -/

/-- Title contribution of the TIDAL scorer, as §4.1 describes it. -/
def tidalTitlePoints (track : Str) (item : TidalItem) : Int :=
  let title := pyNorm item.title
  let ntrack := pyNorm (some track)
  if !ntrack.isEmpty && occursIn ntrack title then 55
  else min 35 (7 * ((wordRuns ntrack).countP
    (fun t => !t.isEmpty && occursIn t title) : Int))

/-- Artist contribution of the TIDAL scorer (+20 title hit, +20 names hit). -/
def tidalArtistPoints (artist : Option Str) (item : TidalItem) : Int :=
  let title := pyNorm item.title
  let channel := pyNorm (some (joinCommaSpace item.artists))
  let nartist := pyNorm artist
  (if !nartist.isEmpty && occursIn nartist title then (20 : Int) else 0) +
  (if !nartist.isEmpty && occursIn nartist channel then (20 : Int) else 0)

/-- Does penalty word `w` qualify against the TIDAL candidate: present in
the normalized title and absent from the normalized track string? -/
def tidalQualifies (track : Str) (item : TidalItem) (w : Str) : Bool :=
  occursIn w (pyNorm item.title) &&
    ((pyNorm (some track)).isEmpty || !occursIn w (pyNorm (some track)))

/-- Title contribution of the YouTube scorer. -/
def ytTitlePoints (track : Str) (item : YtItem) : Int :=
  let title := pyNorm item.title
  let ntrack := pyNorm (some track)
  if !ntrack.isEmpty && ytContains title ntrack then 55
  else if !ntrack.isEmpty then
    min 35 (7 * ((wordRuns ntrack).countP (fun t => occursIn t title) : Int))
  else 0

/-- Artist contribution of the YouTube scorer (+20 title hit, +15 channel). -/
def ytArtistPoints (artist : Option Str) (item : YtItem) : Int :=
  let title := pyNorm item.title
  let channel := pyNorm item.channelTitle
  let nartist := pyNorm artist
  (if !nartist.isEmpty && ytContains title nartist then (20 : Int) else 0) +
  (if !nartist.isEmpty && ytContains channel nartist then (15 : Int) else 0)

/-- Does penalty word `w` qualify against the YouTube candidate? -/
def ytQualifies (track : Str) (item : YtItem) (w : Str) : Bool :=
  occursIn w (pyNorm item.title) &&
    ((pyNorm (some track)).isEmpty || !occursIn w (pyNorm (some track)))

/-- Music-category bonus of the YouTube scorer. -/
def ytCatBonus (item : YtItem) : Int :=
  if item.categoryId == some "10".toList then 5 else 0

/-! ## Planner helpers -/

/-- A song is kept by the TIDAL planner iff its stripped title is
non-empty. -/
def keepSong (s : SongMeta) : Bool := !(pyStripWs (s.track.getD [])).isEmpty

/-- The planned item the TIDAL planner produces for one kept song when the
provider search returns `searchT query limit` without raising. -/
def tidal_plan_item_of (searchT : Str → Nat → List TidalItem) (limit : Nat)
    (min_score_flag : Int) (s : SongMeta) : TidalPlanItem :=
  let track := pyStripWs (s.track.getD [])
  let artistStripped := pyStripWs (s.artist.getD [])
  let artist : Option Str :=
    if artistStripped.isEmpty then none else some artistStripped
  let r := tidal_best_of track artist
    (searchT (joinDashSep (queryParts (some track) artist)) limit)
  { track := track, artist := artist, tidal_id := r.1, score := r.2.1,
    low_confidence := decide (r.2.1 < min_score_flag),
    title := r.2.2.bind TInfo.title, artists := r.2.2.map TInfo.artistsText }

/-- The planned item the YouTube planner produces for one kept song. -/
def yt_plan_item_of
    (resolve : Str → Option Str → Nat → Option Str × Int × Option YtInfo)
    (limit : Nat) (return_scores : Bool) (min_score_flag : Int)
    (s : SongMeta) : YtPlanItem :=
  let t := s.track.getD []
  let r := resolve t s.artist limit
  { track := t, artist := s.artist, videoId := r.1,
    score := if return_scores then some r.2.1 else none,
    low_confidence := decide (r.2.1 < min_score_flag),
    title := r.2.2.bind YtInfo.title, channel := r.2.2.bind YtInfo.channel,
    url := r.2.2.bind YtInfo.url }

/-! ## Planner queries and a raising search -/

/-- The query string the planner sends to the provider search for a song. -/
def songQuery (s : SongMeta) : Str :=
  let track := pyStripWs (s.track.getD [])
  let artistStripped := pyStripWs (s.artist.getD [])
  let artist : Option Str :=
    if artistStripped.isEmpty then none else some artistStripped
  joinDashSep (queryParts (some track) artist)

/-- A provider search that raises on the query `"bad"` and otherwise
returns no candidates. -/
def c1BadSearch : Str → Nat → Except PyErr (List TidalItem) :=
  fun q _ => if q == "bad".toList then .error .providerError else .ok []

/-! ## Properties of the stable descending sort -/

theorem insDesc_perm {α : Type} (key : α → Int) (x : α) :
    ∀ acc : List α, (insDesc key x acc).Perm (x :: acc) := by
  intro acc
  induction acc with
  | nil => simp [insDesc]
  | cons y ys ih =>
    simp only [insDesc]
    by_cases h : key y < key x
    · simp [h]
    · simp only [h, if_false]
      exact ((ih.cons y).trans (List.Perm.swap x y ys))

theorem chain_desc_head {α : Type} (key : α → Int) :
    ∀ {y : α} {ys : List α},
      List.Chain' (fun a b => key b ≤ key a) (y :: ys) →
      ∀ z ∈ ys, key z ≤ key y := by
  intro y ys
  induction ys generalizing y with
  | nil => intro _ z hz; cases hz
  | cons z zs ih =>
    intro h w hw
    rw [List.chain'_cons] at h
    rw [List.mem_cons] at hw
    rcases hw with hw | hw
    · subst hw; exact h.1
    · exact le_trans (ih h.2 w hw) h.1

theorem insDesc_head {α : Type} (key : α → Int) (x : α) :
    ∀ acc : List α, (insDesc key x acc).head? = some x ∨
      (insDesc key x acc).head? = acc.head? := by
  intro acc
  cases acc with
  | nil => left; rfl
  | cons y ys =>
    simp only [insDesc]
    by_cases h : key y < key x
    · left; simp [h]
    · right; simp [h]

theorem insDesc_chain {α : Type} (key : α → Int) (x : α) :
    ∀ acc : List α, List.Chain' (fun a b => key b ≤ key a) acc →
      List.Chain' (fun a b => key b ≤ key a) (insDesc key x acc) := by
  intro acc
  induction acc with
  | nil => intro _; simp [insDesc]
  | cons y ys ih =>
    intro h
    simp only [insDesc]
    by_cases hlt : key y < key x
    · simp only [hlt, if_true]
      exact List.chain'_cons.mpr ⟨le_of_lt hlt, h⟩
    · simp only [hlt, if_false]
      rw [List.chain'_cons'] at h ⊢
      refine ⟨?_, ih h.2⟩
      intro z hz
      rcases insDesc_head key x ys with hh | hh
      · rw [hh] at hz
        simp only [Option.mem_def, Option.some.injEq] at hz
        subst hz
        exact le_of_not_lt hlt
      · rw [hh] at hz
        exact h.1 z hz

theorem insDesc_filter {α : Type} (key : α → Int) (x : α) (kv : Int) :
    ∀ acc : List α, List.Chain' (fun a b => key b ≤ key a) acc →
      (insDesc key x acc).filter (fun y => key y == kv) =
        if key x == kv then
          acc.filter (fun y => key y == kv) ++ [x]
        else
          acc.filter (fun y => key y == kv) := by
  intro acc
  induction acc with
  | nil =>
    intro _
    by_cases h : key x == kv <;> simp [insDesc, h]
  | cons y ys ih =>
    intro hch
    simp only [insDesc]
    by_cases hlt : key y < key x
    · simp only [hlt, if_true]
      by_cases hx : key x = kv
      · have hnil : (y :: ys).filter (fun z => key z == kv) = [] := by
          rw [List.filter_eq_nil_iff]
          intro z hz
          rw [List.mem_cons] at hz
          have hz' : key z ≤ key y := by
            rcases hz with hz | hz
            · subst hz; exact le_refl _
            · exact chain_desc_head key hch z hz
          simp only [beq_iff_eq]
          omega
        rw [List.filter_cons, hnil]
        simp [hx]
      · rw [List.filter_cons]
        simp [hx]
    · simp only [hlt, if_false]
      have ihy := ih hch.tail
      rw [List.filter_cons, List.filter_cons, ihy]
      by_cases hx : key x = kv <;> by_cases hy : key y = kv <;>
        simp [hx, hy]

theorem sortDesc_go {α : Type} (key : α → Int) :
    ∀ (l acc : List α), List.Chain' (fun a b => key b ≤ key a) acc →
      List.Chain' (fun a b => key b ≤ key a)
        (List.foldl (fun a x => insDesc key x a) acc l) ∧
      ∀ kv : Int,
        (List.foldl (fun a x => insDesc key x a) acc l).filter
            (fun y => key y == kv) =
          acc.filter (fun y => key y == kv) ++
            l.filter (fun y => key y == kv) := by
  intro l
  induction l with
  | nil => intro acc h; exact ⟨h, fun kv => by simp⟩
  | cons x xs ih =>
    intro acc h
    have hins := insDesc_chain key x acc h
    obtain ⟨hc, hf⟩ := ih (insDesc key x acc) hins
    refine ⟨hc, fun kv => ?_⟩
    rw [List.foldl_cons]
    rw [hf kv, insDesc_filter key x kv acc h, List.filter_cons]
    by_cases hx : key x = kv <;> simp [hx]

theorem sortDesc_chain {α : Type} (key : α → Int) (l : List α) :
    List.Chain' (fun a b => key b ≤ key a) (sortDesc key l) :=
  (sortDesc_go key l [] List.chain'_nil).1

theorem sortDesc_filter {α : Type} (key : α → Int) (l : List α) (kv : Int) :
    (sortDesc key l).filter (fun y => key y == kv) =
      l.filter (fun y => key y == kv) := by
  have h := (sortDesc_go key l [] List.chain'_nil).2 kv
  simpa [sortDesc] using h

theorem sortDesc_perm {α : Type} (key : α → Int) (l : List α) :
    (sortDesc key l).Perm l := by
  suffices h : ∀ (l acc : List α),
      (List.foldl (fun a x => insDesc key x a) acc l).Perm (l ++ acc) by
    simpa [sortDesc] using h l []
  intro l
  induction l with
  | nil => intro acc; simp
  | cons x xs ih =>
    intro acc
    rw [List.foldl_cons]
    refine ((ih (insDesc key x acc)).trans ?_)
    have h1 : (xs ++ insDesc key x acc).Perm (xs ++ (x :: acc)) :=
      List.Perm.append_left xs (insDesc_perm key x acc)
    exact h1.trans List.perm_middle

/-! ## Helper lemmas about the insertion layer -/

theorem mem_dedupPOAux :
    ∀ (l seen : List Int) (a : Int),
      a ∈ dedupPOAux seen l ↔ a ∈ l ∧ a ∉ seen := by
  intro l
  induction l with
  | nil => intro seen a; simp [dedupPOAux]
  | cons x xs ih =>
    intro seen a
    simp only [dedupPOAux]
    by_cases h : seen.elem x
    · rw [if_pos h]
      have hx : x ∈ seen := by simpa using h
      rw [ih]
      simp only [List.mem_cons]
      constructor
      · rintro ⟨ha, hs⟩; exact ⟨Or.inr ha, hs⟩
      · rintro ⟨ha | ha, hs⟩
        · subst ha; exact absurd hx hs
        · exact ⟨ha, hs⟩
    · rw [if_neg h]
      have hx : x ∉ seen := by simpa using h
      simp only [List.mem_cons, ih, not_or]
      constructor
      · rintro (rfl | ⟨ha, hne, hns⟩)
        · exact ⟨Or.inl rfl, hx⟩
        · exact ⟨Or.inr ha, hns⟩
      · rintro ⟨rfl | ha, hs⟩
        · exact Or.inl rfl
        · by_cases hax : a = x
          · exact Or.inl hax
          · exact Or.inr ⟨ha, hax, hs⟩

theorem mem_dedupPO (l : List Int) (a : Int) : a ∈ dedupPO l ↔ a ∈ l := by
  rw [dedupPO, mem_dedupPOAux]
  simp

theorem dedupPO_toFinset (l : List Int) : (dedupPO l).toFinset = l.toFinset := by
  ext a
  simp [List.mem_toFinset, mem_dedupPO]

theorem chunks100_flatten (l : List Int) : (chunks100 l).flatten = l := by
  induction l using chunks100.induct with
  | case1 => simp [chunks100]
  | case2 x xs ih =>
    rw [chunks100]
    simp only [List.flatten_cons, ih, List.cons_append]
    rw [List.take_append_drop]

theorem filterMap_id_map_some {α : Type} (l : List α) :
    (l.map some).filterMap id = l := by
  induction l with
  | nil => rfl
  | cons x xs ih => simp [List.filterMap_cons, ih]

theorem tidal_client_add_tracks_eq (contents : List (Option Int)) (ids : List Int) :
    tidal_client_add_tracks contents ids =
      (contents ++ (dedupPO ids).map some, chunks100 (dedupPO ids)) := by
  rw [tidal_client_add_tracks]
  by_cases h : ids.isEmpty
  · have : ids = [] := by rwa [List.isEmpty_iff] at h
    subst this
    simp [dedupPO, dedupPOAux, chunks100]
  · simp [h]

/-! ## Lookup helper lemmas -/

theorem find?_append_eq {α : Type} (p : α → Bool) :
    ∀ (l1 l2 : List α), (l1 ++ l2).find? p =
      (match l1.find? p with
       | some x => some x
       | none => l2.find? p) := by
  intro l1 l2
  induction l1 with
  | nil => simp
  | cons a as ih =>
    by_cases h : p a
    · rw [List.cons_append, List.find?_cons_of_pos _ h, List.find?_cons_of_pos _ h]
    · rw [List.cons_append, List.find?_cons_of_neg _ h, List.find?_cons_of_neg _ h, ih]

theorem yt_find_pl_loop_eq_flatten (title : Str) :
    ∀ pages : List (List YtPlMeta),
      yt_find_pl_loop title pages =
        pages.flatten.find? (fun it => it.title == some title) := by
  intro pages
  induction pages with
  | nil => rfl
  | cons page rest ih =>
    rw [yt_find_pl_loop, List.flatten_cons, find?_append_eq]
    cases h : page.find? (fun it => it.title == some title) with
    | none => simpa [h] using ih
    | some it => simp [h]

/-! ## C7 — auto-accept routing -/

/-- C7 (counterexample): in the TIDAL migrator the module constant
`PASAR_CANCIONES = "a"` routes a below-threshold item with a (truthy)
resolved id to an insertion with no decision interaction, contradicting the
claim that auto-acceptance happens only when `score ≥ score_threshold`:
here `score = 40 < 70` yet id `123` is queued with no interaction. -/
theorem C7_counterexample :
    tidal_item_decision 70 ⟨"song".toList, none, some 123, 40, none, none⟩ =
      .addNowLow 123 ∧
    tidal_queued_id (tidal_item_decision 70
      ⟨"song".toList, none, some 123, 40, none, none⟩) = some 123 ∧
    ¬ (70 ≤ (40 : Int)) := by
  exact ⟨by decide, by decide, by decide⟩

/-- C7 (amended): in the YouTube migrator an item is routed to the
no-interaction auto-insert branch iff its resolved id is truthy (non-null
and non-empty) and its score is at least the threshold; in the TIDAL
migrator, the high-confidence branch is taken iff the id is truthy
(non-null and non-zero) and the score meets the threshold, but because of
the bulk flag `PASAR_CANCIONES = "a"` every item with a truthy id is queued
with no interaction regardless of score; an item with a null resolved id is
never queued without interaction in either migrator. -/
theorem C7_auto_accept_truthy (thr : Int) (itT : TMigPlanned) (itY : YMigPlanned) :
    (tdecisionIsAddNow (tidal_item_decision thr itT) =
      (pyTruthyInt itT.tidal_id && decide (thr ≤ itT.score))) ∧
    ((tidal_queued_id (tidal_item_decision thr itT)).isSome =
      pyTruthyInt itT.tidal_id) ∧
    (yrouteIsAuto (yt_item_route thr itY) =
      (pyTruthyStr itY.video_id && decide (thr ≤ itY.score))) ∧
    (itT.tidal_id = none → tidal_item_decision thr itT = .skipLogged) ∧
    (itY.video_id = none → yt_item_route thr itY = .interactive) := by
  refine ⟨?_, ?_, ?_, ?_, ?_⟩
  · rw [tidal_item_decision]
    by_cases h2 : pyTruthyInt itT.tidal_id = true
    · by_cases h1 : thr ≤ itT.score
      · have hd : decide (thr ≤ itT.score) = true := by simp [h1]
        simp [h2, hd, tdecisionIsAddNow]
      · have hd : decide (thr ≤ itT.score) = false := by simp [h1]
        simp [h2, hd, tdecisionIsAddNow, PASAR_CANCIONES]
    · have h2' : pyTruthyInt itT.tidal_id = false := by simpa using h2
      simp [h2', tdecisionIsAddNow, PASAR_CANCIONES]
  · rw [tidal_item_decision]
    by_cases h2 : pyTruthyInt itT.tidal_id = true
    · by_cases h1 : thr ≤ itT.score
      · have hd : decide (thr ≤ itT.score) = true := by simp [h1]
        simp [h2, hd, tidal_queued_id]
      · have hd : decide (thr ≤ itT.score) = false := by simp [h1]
        simp [h2, hd, tidal_queued_id, PASAR_CANCIONES]
    · have h2' : pyTruthyInt itT.tidal_id = false := by simpa using h2
      simp [h2', tidal_queued_id, PASAR_CANCIONES]
  · rw [yt_item_route]
    by_cases h2 : pyTruthyStr itY.video_id = true
    · by_cases h1 : thr ≤ itY.score
      · have hd : decide (thr ≤ itY.score) = true := by simp [h1]
        simp [h2, hd, yrouteIsAuto]
      · have hd : decide (thr ≤ itY.score) = false := by simp [h1]
        simp [h2, hd, yrouteIsAuto]
    · have h2' : pyTruthyStr itY.video_id = false := by simpa using h2
      simp [h2', yrouteIsAuto]
  · intro h
    simp [tidal_item_decision, PASAR_CANCIONES, h, pyTruthyInt]
  · intro h
    simp [yt_item_route, h, pyTruthyStr]

/-- C7 witness: at a concrete null-id item both migrators avoid the
no-interaction insert branch. -/
theorem C7_auto_accept_truthy_witness :
    tidal_item_decision 70 ⟨"t".toList, none, none, 99, none, none⟩ =
      .skipLogged ∧
    yt_item_route 70 ⟨"t".toList, none, none, 99, none, none, none⟩ =
      .interactive :=
  ⟨(C7_auto_accept_truthy 70 ⟨"t".toList, none, none, 99, none, none⟩
      ⟨"t".toList, none, none, 99, none, none, none⟩).2.2.2.1 rfl,
   (C7_auto_accept_truthy 70 ⟨"t".toList, none, none, 99, none, none⟩
      ⟨"t".toList, none, none, 99, none, none, none⟩).2.2.2.2 rfl⟩

/-! ## C9 — get-or-create playlist lookup -/

/-- C9 (counterexample): the YouTube `get_or_create_playlist` compares
titles with `==` (case-sensitive).  An account whose only playlist is
titled `"ROADTRIP"` matches `"Roadtrip"` case-insensitively (the trimmed
lowercased titles coincide), yet the call creates a new playlist instead
of returning the existing one. -/
theorem C9_counterexample :
    yt_get_or_create_playlist [[⟨some "ROADTRIP".toList⟩]] "Roadtrip".toList =
      .created "Roadtrip".toList ∧
    tidalTitleNorm "ROADTRIP".toList = tidalTitleNorm "Roadtrip".toList := by
  exact ⟨by decide, by decide⟩

/-- C9 (amended): the TIDAL `get_or_create_playlist` looks up by
case-insensitive (trimmed) exact title match, returning the first matching
playlist and creating one only when none matches; the YouTube variant scans
its pages in order for an exact case-sensitive title match, returning the
first hit and creating a new playlist only when no page contains one. -/
theorem C9_get_or_create_lookup (pls : List TPlMeta)
    (pages : List (List YtPlMeta)) (title : Str) :
    (pls.find? (fun q => tidalTitleNorm (q.title.getD []) ==
        tidalTitleNorm title) = none →
      tidal_get_or_create_playlist pls title = .created title) ∧
    (∀ q, pls.find? (fun q => tidalTitleNorm (q.title.getD []) ==
        tidalTitleNorm title) = some q →
      tidal_get_or_create_playlist pls title = .got q.p) ∧
    (yt_find_pl_loop title pages =
      pages.flatten.find? (fun it => it.title == some title)) ∧
    (pages.flatten.find? (fun it => it.title == some title) = none →
      yt_get_or_create_playlist pages title = .created title) ∧
    (∀ it, pages.flatten.find? (fun it => it.title == some title) = some it →
      yt_get_or_create_playlist pages title = .got it) := by
  refine ⟨?_, ?_, yt_find_pl_loop_eq_flatten title pages, ?_, ?_⟩
  · intro h; simp [tidal_get_or_create_playlist, h]
  · intro q h; simp [tidal_get_or_create_playlist, h]
  · intro h
    simp [yt_get_or_create_playlist, yt_find_pl_loop_eq_flatten, h]
  · intro it h
    simp [yt_get_or_create_playlist, yt_find_pl_loop_eq_flatten, h]

/-- C9 witness: concrete lookups — a differently-cased TIDAL title is
found, and a missing YouTube title is created. -/
theorem C9_get_or_create_lookup_witness :
    tidal_get_or_create_playlist
      [⟨some "ROADTRIP".toList, some ⟨some "ROADTRIP".toList, []⟩⟩]
      "Roadtrip".toList =
      .got (some ⟨some "ROADTRIP".toList, []⟩) ∧
    yt_get_or_create_playlist [[⟨some "Other".toList⟩]] "Roadtrip".toList =
      .created "Roadtrip".toList :=
  ⟨(C9_get_or_create_lookup
      [⟨some "ROADTRIP".toList, some ⟨some "ROADTRIP".toList, []⟩⟩]
      [[⟨some "Other".toList⟩]] "Roadtrip".toList).2.1
      ⟨some "ROADTRIP".toList, some ⟨some "ROADTRIP".toList, []⟩⟩ (by decide),
   (C9_get_or_create_lookup
      [⟨some "ROADTRIP".toList, some ⟨some "ROADTRIP".toList, []⟩⟩]
      [[⟨some "Other".toList⟩]] "Roadtrip".toList).2.2.2.1 (by decide)⟩

/-! ## C10 — `add_videos` treats its ids as dicts -/

theorem yt_build_to_add_ok_dicts (existing : List Str) :
    ∀ (vids : List YVal) (t : List Str),
      yt_build_to_add existing vids = .ok t →
      (∀ v ∈ vids, ∃ o, v = YVal.pydict o) ∧
      (t ≠ [] → ∃ s : Str, YVal.pydict (some s) ∈ vids ∧ s ≠ []) := by
  intro vids
  induction vids with
  | nil =>
    intro t ht
    simp only [yt_build_to_add, Except.ok.injEq] at ht
    subst ht
    exact ⟨by simp, by simp⟩
  | cons v vs ih =>
    intro t ht
    cases v with
    | pystr s => simp [yt_build_to_add, yvalGetVideoId] at ht
    | pydict o =>
      simp only [yt_build_to_add, yvalGetVideoId] at ht
      by_cases hc : (pyTruthyStr o && !existing.elem (o.getD [])) = true
      · rw [if_pos hc] at ht
        cases hrest : yt_build_to_add existing vs with
        | error e => rw [hrest] at ht; cases ht
        | ok rest =>
          rw [hrest] at ht
          simp only [Except.ok.injEq] at ht
          obtain ⟨hall, _⟩ := ih rest hrest
          have ho : ∃ s : Str, o = some s ∧ s ≠ [] := by
            cases o with
            | none => simp [pyTruthyStr] at hc
            | some s =>
              refine ⟨s, rfl, ?_⟩
              simp only [pyTruthyStr, Bool.and_eq_true] at hc
              intro hsnil
              subst hsnil
              simp at hc
          refine ⟨?_, ?_⟩
          · intro w hw
            rw [List.mem_cons] at hw
            rcases hw with rfl | hw
            · exact ⟨o, rfl⟩
            · exact hall w hw
          · intro _
            obtain ⟨s, rfl, hs⟩ := ho
            exact ⟨s, List.mem_cons_self _ _, hs⟩
      · rw [if_neg hc] at ht
        obtain ⟨hall, hne⟩ := ih t ht
        refine ⟨?_, ?_⟩
        · intro w hw
          rw [List.mem_cons] at hw
          rcases hw with rfl | hw
          · exact ⟨o, rfl⟩
          · exact hall w hw
        · intro h
          obtain ⟨s, hmem, hs⟩ := hne h
          exact ⟨s, List.mem_cons_of_mem _ hmem, hs⟩

/-- C10: `add_videos` accesses every element of `video_ids` as a mapping.
For every non-empty list of plain string ids — the form every caller in
this repository passes — the call fails with `AttributeError` before any
provider mutation call (the error result carries an empty call list and
the unchanged playlist); and whenever a provider mutation call is made, all
elements were dicts and some dict carried a non-empty `"videoId"`. -/
theorem C10_add_videos_dict_only :
    (∀ (pl : YPlaylist) (avoid : Bool) (s : Str) (ss : List Str),
      yt_add_videos pl ((s :: ss).map YVal.pystr) avoid =
        ⟨.error .attributeError, pl, []⟩) ∧
    (∀ (pl : YPlaylist) (avoid : Bool) (vids : List YVal),
      (yt_add_videos pl vids avoid).calls ≠ [] →
      (∀ v ∈ vids, ∃ o, v = YVal.pydict o) ∧
      (∃ s : Str, YVal.pydict (some s) ∈ vids ∧ s ≠ [])) := by
  constructor
  · intro pl avoid s ss
    simp [yt_add_videos, yt_build_to_add, yvalGetVideoId]
  · intro pl avoid vids hcalls
    simp only [yt_add_videos] at hcalls
    cases hb : yt_build_to_add
        (if avoid = true then list_playlist_video_ids pl else []) vids with
    | error e => rw [hb] at hcalls; simp at hcalls
    | ok toAdd =>
      rw [hb] at hcalls
      by_cases he : toAdd.isEmpty
      · simp [he] at hcalls
      · have hne : toAdd ≠ [] := by
          intro h; subst h; simp at he
        obtain ⟨hall, hx⟩ :=
          yt_build_to_add_ok_dicts
            (if avoid = true then list_playlist_video_ids pl else []) vids
            toAdd hb
        exact ⟨hall, hx hne⟩

/-- C10 witness: a one-element plain-string list raises before any
mutation, and a one-element dict list that does reach the provider add is
made of dicts with a non-empty `"videoId"`. -/
theorem C10_add_videos_dict_only_witness :
    yt_add_videos ⟨none, []⟩ [YVal.pystr "abc".toList] true =
      ⟨.error .attributeError, ⟨none, []⟩, []⟩ ∧
    ((∀ v ∈ [YVal.pydict (some "abc".toList)], ∃ o, v = YVal.pydict o) ∧
      (∃ s : Str, YVal.pydict (some s) ∈ [YVal.pydict (some "abc".toList)] ∧
        s ≠ [])) :=
  ⟨C10_add_videos_dict_only.1 ⟨none, []⟩ true "abc".toList [],
   C10_add_videos_dict_only.2 ⟨none, []⟩ true
     [YVal.pydict (some "abc".toList)] (by decide)⟩

/-! ## C8 — duplicate suppression makes all-present inserts a no-op -/

/-- C8: with duplicate avoidance on, inserting only ids that are already in
the destination playlist issues zero provider mutation calls and leaves the
playlist unchanged — for the TIDAL `add_tracks_by_ids` and for the YouTube
`add_videos` (dict-shaped ids, the only shape that does not raise). -/
theorem C8_all_present_noop :
    (∀ (pl : TPlaylist) (tids : List (Option Int)),
      (∀ t ∈ tids.filterMap id, t ∈ list_playlist_track_ids pl) →
      tidal_add_tracks_by_ids pl tids true = (pl, [])) ∧
    (∀ (pl : YPlaylist) (ds : List (Option Str)),
      (∀ s ∈ ds.filterMap id, s ∈ list_playlist_video_ids pl) →
      yt_add_videos pl (ds.map YVal.pydict) true = ⟨.ok [], pl, []⟩) := by
  constructor
  · intro pl tids h
    have hfil : (tids.filterMap id).filter
        (fun t => !decide (t ∈ list_playlist_track_ids pl)) = [] := by
      rw [List.filter_eq_nil_iff]
      intro t ht
      simp [h t ht]
    by_cases he : (tids.filterMap id).isEmpty
    · simp [tidal_add_tracks_by_ids, he]
    · simp [tidal_add_tracks_by_ids, he, hfil]
  · intro pl ds h
    have hb : ∀ ds' : List (Option Str),
        (∀ s ∈ ds'.filterMap id, s ∈ list_playlist_video_ids pl) →
        yt_build_to_add (list_playlist_video_ids pl) (ds'.map YVal.pydict) =
          .ok [] := by
      intro ds'
      induction ds' with
      | nil => intro _; rfl
      | cons d rest ih =>
        intro hd
        cases d with
        | none =>
          have hstep : yt_build_to_add (list_playlist_video_ids pl)
              (List.map YVal.pydict (none :: rest)) =
              yt_build_to_add (list_playlist_video_ids pl)
                (List.map YVal.pydict rest) := by
            simp [yt_build_to_add, yvalGetVideoId, pyTruthyStr]
          rw [hstep]
          exact ih (fun x hx => hd x (by simpa using hx))
        | some s =>
          have hs : s ∈ list_playlist_video_ids pl :=
            hd s (by simp [List.filterMap_cons])
          have helem : (list_playlist_video_ids pl).elem s = true :=
            List.elem_eq_true_of_mem hs
          have hstep : yt_build_to_add (list_playlist_video_ids pl)
              (List.map YVal.pydict (some s :: rest)) =
              yt_build_to_add (list_playlist_video_ids pl)
                (List.map YVal.pydict rest) := by
            simp only [List.map_cons, yt_build_to_add, yvalGetVideoId,
              Option.getD_some, helem, Bool.not_true, Bool.and_false,
              Bool.false_eq_true, if_false]
          rw [hstep]
          refine ih (fun x hx => hd x ?_)
          have h2 : List.filterMap id ((some s : Option Str) :: rest) =
              s :: List.filterMap id rest := by
            simp [List.filterMap_cons]
          rw [h2]
          exact List.mem_cons_of_mem _ hx
    simp [yt_add_videos, hb ds h]

/-- C8 witness: concrete all-present insertions stay no-ops on both sides. -/
theorem C8_all_present_noop_witness :
    tidal_add_tracks_by_ids ⟨none, [some 1, some 2]⟩ [some 1, none, some 2]
      true = (⟨none, [some 1, some 2]⟩, []) ∧
    yt_add_videos ⟨none, [some "a".toList]⟩
      [YVal.pydict (some "a".toList)] true =
      ⟨.ok [], ⟨none, [some "a".toList]⟩, []⟩ := by
  constructor
  · exact C8_all_present_noop.1 ⟨none, [some 1, some 2]⟩
      [some 1, none, some 2] (by decide)
  · have h := C8_all_present_noop.2 ⟨none, [some "a".toList]⟩
      [some "a".toList] (by decide)
    simpa using h

/-! ## C6 — resolver ranking -/

/-- C6: the resolver attaches a score to every candidate the provider
search returned, sorts descending by score (stably: for each score value
the candidates keep their provider order, and the result is a permutation
of the scored input), and `find_best_match_with_score` returns the top
entry's `(id, score, info)` — `(None, 0, None)` when the search returned
no candidates. -/
theorem C6_resolver_ranking (track : Str) (artist : Option Str)
    (items : List TidalItem) :
    List.Chain' (fun a b => b.1 ≤ a.1) (tidal_with_scores track artist items) ∧
    (tidal_with_scores track artist items).Perm
      (items.map fun it => (tidal_score_candidate track artist it, it)) ∧
    (∀ kv : Int,
      (tidal_with_scores track artist items).filter (fun p => p.1 == kv) =
        (items.map fun it => (tidal_score_candidate track artist it, it)).filter
          (fun p => p.1 == kv)) ∧
    tidal_best_of track artist items =
      (match tidal_with_scores track artist items with
       | [] => (none, 0, none)
       | b :: _ =>
         (b.2.id, b.1, some ⟨b.2.id, b.2.title, joinCommaSpace b.2.artists⟩)) ∧
    tidal_best_of track artist [] = (none, 0, none) := by
  refine ⟨?_, ?_, ?_, rfl, rfl⟩
  · exact sortDesc_chain (fun p => p.1)
      (items.map fun it => (tidal_score_candidate track artist it, it))
  · exact sortDesc_perm (fun p => p.1)
      (items.map fun it => (tidal_score_candidate track artist it, it))
  · intro kv
    exact sortDesc_filter (fun p => p.1)
      (items.map fun it => (tidal_score_candidate track artist it, it)) kv

/-! ## Score decomposition lemmas (for C4 and C5) -/

theorem penal_foldl_shift (p : Int) (qual : Str → Bool) :
    ∀ (ws : List Str) (s : Int),
      ws.foldl (fun sc w => if qual w then sc - p else sc) s =
        s + ws.foldl (fun sc w => if qual w then sc - p else sc) 0 := by
  intro ws
  induction ws with
  | nil => intro s; simp
  | cons w ws ih =>
    intro s
    rw [List.foldl_cons, List.foldl_cons, ih, ih (if qual w then 0 - p else 0)]
    by_cases h : qual w
    · simp only [h, if_true]
      ring
    · simp [h]

theorem penal_foldl_count (p : Int) (qual : Str → Bool) :
    ∀ ws : List Str,
      ws.foldl (fun sc w => if qual w then sc - p else sc) 0 =
        -(p * (ws.countP qual : Int)) := by
  intro ws
  induction ws with
  | nil => simp
  | cons w ws ih =>
    rw [List.foldl_cons, penal_foldl_shift, ih, List.countP_cons]
    by_cases h : qual w
    · simp only [h, if_true]
      push_cast
      ring
    · simp [h]

theorem occursIn_nil_of_ne (w : Str) (hw : w ≠ []) : occursIn w [] = false := by
  cases w with
  | nil => exact absurd rfl hw
  | cons a as => rfl

/-! ## C4 — title containment points -/

/-- C4 (counterexample): for the empty track string, the normalized track
is a substring of every candidate title (Python `"" in s` is true), yet
neither scorer awards the 55 title points: both return 0 on a candidate
titled `"a"`, so the score before (empty) penalties is 0, not ≥ 55. -/
theorem C4_counterexample :
    occursIn (pyNorm (some ([] : Str))) (pyNorm (some ['a'])) = true ∧
    tidal_score_candidate [] none ⟨none, some ['a'], []⟩ = 0 ∧
    yt_score_candidate [] none ⟨some ['a'], none, none⟩ = 0 := by
  exact ⟨by decide, by decide, by decide⟩

/-- C4 (amended): if the normalized track string is non-empty and a
substring of the normalized candidate title, the scorer's title component
is 55 (so the score before penalties is at least 55); otherwise the title
component is `min 35 (7 × token hits)` (which is 0 for an empty track).
Both scorers equal the clipped sum of title points, artist points and the
penalty loop. -/
theorem C4_title_containment (track : Str) (artist : Option Str)
    (itT : TidalItem) (itY : YtItem) :
    (tidal_score_candidate track artist itT =
      max 0 (min 100 (tidalTitlePoints track itT +
        tidalArtistPoints artist itT +
        PENAL_WORDS.foldl
          (fun sc w => if tidalQualifies track itT w then sc - 8 else sc) 0))) ∧
    (yt_score_candidate track artist itY =
      max 0 (min 100 (ytTitlePoints track itY + ytArtistPoints artist itY +
        YT_PENAL_WORDS.foldl
          (fun sc w => if ytQualifies track itY w then sc - 10 else sc) 0 +
        ytCatBonus itY))) ∧
    ((!(pyNorm (some track)).isEmpty &&
        occursIn (pyNorm (some track)) (pyNorm itT.title)) = true →
      (55 : Int) ≤ tidalTitlePoints track itT + tidalArtistPoints artist itT) ∧
    ((!(pyNorm (some track)).isEmpty &&
        ytContains (pyNorm itY.title) (pyNorm (some track))) = true →
      (55 : Int) ≤ ytTitlePoints track itY + ytArtistPoints artist itY) := by
  refine ⟨?_, ?_, ?_, ?_⟩
  · simp only [tidal_score_candidate, tidalTitlePoints, tidalArtistPoints,
      tidalQualifies]
    rw [penal_foldl_shift]
    congr 2
    split_ifs <;> ring
  · simp only [yt_score_candidate, ytTitlePoints, ytArtistPoints,
      ytQualifies, ytCatBonus]
    rw [penal_foldl_shift]
    congr 2
    split_ifs <;> ring
  · intro h
    simp only [tidalTitlePoints, tidalArtistPoints, h, if_true]
    split_ifs <;> omega
  · intro h
    simp only [ytTitlePoints, ytArtistPoints, h, if_true]
    split_ifs <;> omega

/-- C4 witness: the 55-point branch at a concrete matching pair. -/
theorem C4_title_containment_witness :
    (55 : Int) ≤ tidalTitlePoints "yellow".toList
        ⟨some 1, some "Yellow".toList, []⟩ +
      tidalArtistPoints none ⟨some 1, some "Yellow".toList, []⟩ ∧
    (55 : Int) ≤ ytTitlePoints "yellow".toList
        ⟨some "Yellow".toList, none, none⟩ +
      ytArtistPoints none ⟨some "Yellow".toList, none, none⟩ :=
  ⟨(C4_title_containment "yellow".toList none
      ⟨some 1, some "Yellow".toList, []⟩
      ⟨some "Yellow".toList, none, none⟩).2.2.1 (by decide),
   (C4_title_containment "yellow".toList none
      ⟨some 1, some "Yellow".toList, []⟩
      ⟨some "Yellow".toList, none, none⟩).2.2.2 (by decide)⟩

/-! ## C5 — penalty words -/

/-- C5 (counterexample): the YouTube scorer's penalty set lacks `"live"`.
For track `"yellow"` and a candidate titled `"yellow live"`, the word
`"live"` is present in the normalized candidate title and absent from the
normalized track string, yet the YouTube score is 55 — identical to the
score of a candidate titled `"yellow"` with no penalty word at all — so no
8-to-10-point penalty was subtracted (the TIDAL scorer does subtract its 8
points, scoring 47). -/
theorem C5_counterexample :
    occursIn "live".toList (pyNorm (some "yellow live".toList)) = true ∧
    occursIn "live".toList (pyNorm (some "yellow".toList)) = false ∧
    yt_score_candidate "yellow".toList none
      ⟨some "yellow live".toList, none, none⟩ = 55 ∧
    yt_score_candidate "yellow".toList none
      ⟨some "yellow".toList, none, none⟩ = 55 ∧
    tidal_score_candidate "yellow".toList none
      ⟨none, some "yellow live".toList, []⟩ = 47 := by
  exact ⟨by decide, by decide, by decide, by decide, by decide⟩

/-- C5 (amended): each scorer subtracts a fixed per-word penalty for each
word of its own penalty set that occurs in the normalized candidate title
and is absent from the normalized track string — 8 points per word of
{cover, karaoke, remix, instrumental, live} for the TIDAL scorer, 10
points per word of {cover, karaoke, remix, instrumental} (no "live") for
the YouTube scorer; a non-empty word occurring in the track string itself
never qualifies for a penalty. -/
theorem C5_penalty_words (track : Str) (artist : Option Str)
    (itT : TidalItem) (itY : YtItem) :
    (tidal_score_candidate track artist itT =
      max 0 (min 100 (tidalTitlePoints track itT +
        tidalArtistPoints artist itT -
        8 * (PENAL_WORDS.countP (fun w => tidalQualifies track itT w) : Int)))) ∧
    (yt_score_candidate track artist itY =
      max 0 (min 100 (ytTitlePoints track itY + ytArtistPoints artist itY -
        10 * (YT_PENAL_WORDS.countP (fun w => ytQualifies track itY w) : Int) +
        ytCatBonus itY))) ∧
    (∀ w : Str, w ≠ [] → occursIn w (pyNorm (some track)) = true →
      tidalQualifies track itT w = false ∧ ytQualifies track itY w = false) := by
  refine ⟨?_, ?_, ?_⟩
  · simp only [tidal_score_candidate, tidalTitlePoints, tidalArtistPoints,
      tidalQualifies]
    rw [penal_foldl_shift, penal_foldl_count]
    congr 2
    split_ifs <;> ring
  · simp only [yt_score_candidate, ytTitlePoints, ytArtistPoints,
      ytQualifies, ytCatBonus]
    rw [penal_foldl_shift, penal_foldl_count]
    congr 2
    split_ifs <;> ring
  · intro w hw hocc
    have hne : (pyNorm (some track)).isEmpty = false := by
      cases hn : pyNorm (some track) with
      | nil => rw [hn, occursIn_nil_of_ne w hw] at hocc; cases hocc
      | cons c cs => rfl
    constructor
    · simp [tidalQualifies, hne, hocc]
    · simp [ytQualifies, hne, hocc]

/-- C5 witness: at the concrete "Yellow Live" query, the deliberately
searched word "live" is not penalized by either scorer. -/
theorem C5_penalty_words_witness :
    tidalQualifies "yellow live".toList
      ⟨none, some "yellow live".toList, []⟩ "live".toList = false ∧
    ytQualifies "yellow live".toList
      ⟨some "yellow live".toList, none, none⟩ "live".toList = false :=
  (C5_penalty_words "yellow live".toList none
    ⟨none, some "yellow live".toList, []⟩
    ⟨some "yellow live".toList, none, none⟩).2.2 "live".toList
    (by decide) (by decide)

/-! ## C3 — planner length and order -/

theorem queryParts_ne_nil (track : Str) (artist : Option Str)
    (h : track.isEmpty = false) : queryParts (some track) artist ≠ [] := by
  intro hq
  simp [queryParts, h] at hq

theorem tidal_search_tracks_eval
    (search : Str → Nat → Except PyErr (List TidalItem)) (track : Str)
    (artist : Option Str) (limit : Nat) (h : track.isEmpty = false) :
    tidal_search_tracks search (some track) artist limit =
      search (joinDashSep (queryParts (some track) artist)) limit := by
  rw [tidal_search_tracks]
  cases hq : queryParts (some track) artist with
  | nil => exact absurd hq (queryParts_ne_nil track artist h)
  | cons p ps => rfl

/-- C3 (counterexample): a two-track source list whose second title is
empty plans to a single item — the output is shorter than the input,
because both planners skip falsy titles (`continue`). -/
theorem C3_counterexample :
    tidal_plan_tracks_by_metadata (fun _ _ => .ok []) 5 70
      [⟨some "a".toList, none⟩, ⟨some ([] : Str), none⟩] =
      .ok [⟨"a".toList, none, none, 0, true, none, none⟩] ∧
    ([⟨some "a".toList, none⟩, ⟨some ([] : Str), none⟩] :
      List SongMeta).length = 2 := by
  exact ⟨rfl, rfl⟩

/-- C3 (amended): the planner output contains exactly one item per input
track whose title is non-empty (TIDAL: after `strip()`; YouTube: truthy),
in the input order; tracks with falsy titles are dropped, so the output
length is the number of kept tracks rather than always the input length. -/
theorem C3_planner_shape (searchT : Str → Nat → List TidalItem)
    (resolve : Str → Option Str → Nat → Option Str × Int × Option YtInfo)
    (limit : Nat) (return_scores : Bool) (flag : Int)
    (songs : List SongMeta) :
    tidal_plan_tracks_by_metadata (fun q l => .ok (searchT q l)) limit flag
        songs =
      .ok ((songs.filter keepSong).map (tidal_plan_item_of searchT limit flag)) ∧
    yt_plan_tracks_by_metadata resolve limit return_scores flag songs =
      (songs.filter (fun s => pyTruthyStr s.track)).map
        (yt_plan_item_of resolve limit return_scores flag) := by
  constructor
  · induction songs with
    | nil => rfl
    | cons s rest ih =>
      by_cases he : (pyStripWs (s.track.getD [])).isEmpty
      · have hks : keepSong s = false := by simp [keepSong, he]
        simp only [tidal_plan_tracks_by_metadata, he, if_true,
          List.filter_cons, hks, Bool.false_eq_true, if_false]
        exact ih
      · have he' : (pyStripWs (s.track.getD [])).isEmpty = false := by
          simpa using he
        have hks : keepSong s = true := by simp [keepSong, he']
        have hfb : tidal_find_best_match_with_score
            (fun q l => .ok (searchT q l)) (pyStripWs (s.track.getD []))
            (if (pyStripWs (s.artist.getD [])).isEmpty then none
             else some (pyStripWs (s.artist.getD []))) limit =
            .ok (tidal_best_of (pyStripWs (s.track.getD []))
              (if (pyStripWs (s.artist.getD [])).isEmpty then none
               else some (pyStripWs (s.artist.getD [])))
              (searchT (joinDashSep (queryParts (some (pyStripWs (s.track.getD [])))
                (if (pyStripWs (s.artist.getD [])).isEmpty then none
                 else some (pyStripWs (s.artist.getD []))))) limit)) := by
          rw [tidal_find_best_match_with_score,
            tidal_search_tracks_eval _ _ _ _ he']
        simp only [tidal_plan_tracks_by_metadata, he', Bool.false_eq_true,
          if_false, hfb, ih, List.filter_cons, hks, if_true, List.map_cons]
        rfl
  · induction songs with
    | nil => rfl
    | cons s rest ih =>
      by_cases ht : pyTruthyStr s.track
      · simp only [yt_plan_tracks_by_metadata, ht, if_true,
          List.filter_cons, List.map_cons, ih]
        rfl
      · have ht' : pyTruthyStr s.track = false := by simpa using ht
        simp only [yt_plan_tracks_by_metadata, ht', Bool.false_eq_true,
          if_false, List.filter_cons]
        exact ih

/-! ## C1 — provider errors during planning -/

/-- C1 (counterexample): planning a two-song batch whose second search
raises aborts the whole batch — `plan_tracks_by_metadata` propagates the
provider error and produces no plan at all, instead of an unresolved item
with id = null, score = 0 for the failing track and a continued batch. -/
theorem C1_counterexample :
    tidal_plan_tracks_by_metadata c1BadSearch 5 70
      [⟨some "good".toList, none⟩, ⟨some "bad".toList, none⟩] =
      .error .providerError := by
  rfl

/-- C1 (amended): the planner has no error handling around the per-track
resolution: if the provider search raises for any song with a non-empty
title, `plan_tracks_by_metadata` raises as well and the batch aborts with
no plan.  Only a search that returns successfully with zero candidates
yields the unresolved item (id = null, score = 0), and then planning does
continue over the remaining tracks. -/
theorem C1_error_propagation
    (search : Str → Nat → Except PyErr (List TidalItem)) (limit : Nat)
    (flag : Int) (songs : List SongMeta) :
    ((∃ s ∈ songs, keepSong s = true ∧
        ∃ e, search (songQuery s) limit = .error e) →
      ∃ e, tidal_plan_tracks_by_metadata search limit flag songs =
        .error e) ∧
    (∃ L, tidal_plan_tracks_by_metadata (fun _ _ => .ok ([] : List TidalItem))
        limit flag songs = .ok L ∧
      L.length = (songs.filter keepSong).length ∧
      ∀ it ∈ L, it.tidal_id = none ∧ it.score = 0) := by
  constructor
  · induction songs with
    | nil =>
      rintro ⟨s, hs, _⟩
      cases hs
    | cons s rest ih =>
      rintro ⟨w, hw, hkw, e, hse⟩
      rw [List.mem_cons] at hw
      by_cases he : (pyStripWs (s.track.getD [])).isEmpty
      · rcases hw with rfl | hw
        · rw [keepSong] at hkw
          simp [he] at hkw
        · obtain ⟨e1, h1⟩ := ih ⟨w, hw, hkw, e, hse⟩
          refine ⟨e1, ?_⟩
          simp only [tidal_plan_tracks_by_metadata, he, if_true]
          exact h1
      · have he' : (pyStripWs (s.track.getD [])).isEmpty = false := by
          simpa using he
        cases hsr : search (songQuery s) limit with
        | error e0 =>
          refine ⟨e0, ?_⟩
          have hfb : tidal_find_best_match_with_score search
              (pyStripWs (s.track.getD []))
              (if (pyStripWs (s.artist.getD [])).isEmpty then none
               else some (pyStripWs (s.artist.getD []))) limit =
              .error e0 := by
            rw [tidal_find_best_match_with_score,
              tidal_search_tracks_eval _ _ _ _ he']
            rw [show search (joinDashSep (queryParts
                (some (pyStripWs (s.track.getD [])))
                (if (pyStripWs (s.artist.getD [])).isEmpty then none
                 else some (pyStripWs (s.artist.getD []))))) limit =
              search (songQuery s) limit from rfl, hsr]
          simp only [tidal_plan_tracks_by_metadata, he', Bool.false_eq_true,
            if_false, hfb]
        | ok items =>
          rcases hw with rfl | hw
          · rw [hsr] at hse
            cases hse
          · obtain ⟨e1, h1⟩ := ih ⟨w, hw, hkw, e, hse⟩
            refine ⟨e1, ?_⟩
            have hfb : tidal_find_best_match_with_score search
                (pyStripWs (s.track.getD []))
                (if (pyStripWs (s.artist.getD [])).isEmpty then none
                 else some (pyStripWs (s.artist.getD []))) limit =
                .ok (tidal_best_of (pyStripWs (s.track.getD []))
                  (if (pyStripWs (s.artist.getD [])).isEmpty then none
                   else some (pyStripWs (s.artist.getD []))) items) := by
              rw [tidal_find_best_match_with_score,
                tidal_search_tracks_eval _ _ _ _ he']
              rw [show search (joinDashSep (queryParts
                  (some (pyStripWs (s.track.getD [])))
                  (if (pyStripWs (s.artist.getD [])).isEmpty then none
                   else some (pyStripWs (s.artist.getD []))))) limit =
                search (songQuery s) limit from rfl, hsr]
            simp only [tidal_plan_tracks_by_metadata, he', Bool.false_eq_true,
              if_false, hfb, h1]
  · induction songs with
    | nil => exact ⟨[], rfl, rfl, by simp⟩
    | cons s rest ih =>
      obtain ⟨L, hL, hlen, hall⟩ := ih
      by_cases he : (pyStripWs (s.track.getD [])).isEmpty
      · have hks : keepSong s = false := by simp [keepSong, he]
        refine ⟨L, ?_, ?_, hall⟩
        · simp only [tidal_plan_tracks_by_metadata, he, if_true]
          exact hL
        · rw [List.filter_cons, hks]
          simpa using hlen
      · have he' : (pyStripWs (s.track.getD [])).isEmpty = false := by
          simpa using he
        have hks : keepSong s = true := by simp [keepSong, he']
        have hfb : tidal_find_best_match_with_score
            (fun _ _ => .ok ([] : List TidalItem))
            (pyStripWs (s.track.getD []))
            (if (pyStripWs (s.artist.getD [])).isEmpty then none
             else some (pyStripWs (s.artist.getD []))) limit =
            .ok (none, 0, none) := by
          rw [tidal_find_best_match_with_score,
            tidal_search_tracks_eval _ _ _ _ he']
          rfl
        refine ⟨(⟨pyStripWs (s.track.getD []),
            (if (pyStripWs (s.artist.getD [])).isEmpty then none
              else some (pyStripWs (s.artist.getD []))),
            none, 0, decide ((0 : Int) < flag), none, none⟩ :
            TidalPlanItem) :: L, ?_, ?_, ?_⟩
        · simp only [tidal_plan_tracks_by_metadata, he', Bool.false_eq_true,
            if_false, hfb, hL, Option.none_bind, Option.map_none']
        · rw [List.filter_cons, hks]
          simp [hlen]
        · intro it hit
          rw [List.mem_cons] at hit
          rcases hit with rfl | hit
          · exact ⟨rfl, rfl⟩
          · exact hall it hit

/-- C1 witness: the abort conclusion at the concrete erroring batch. -/
theorem C1_error_propagation_witness :
    ∃ e, tidal_plan_tracks_by_metadata c1BadSearch 5 70
      [⟨some "good".toList, none⟩, ⟨some "bad".toList, none⟩] = .error e :=
  (C1_error_propagation c1BadSearch 5 70
    [⟨some "good".toList, none⟩, ⟨some "bad".toList, none⟩]).1
    ⟨⟨some "bad".toList, none⟩, by simp, by decide,
      .providerError, rfl⟩

/-! ## C2 — reconciliation pushes the symmetric differences -/

theorem tidal_add_sorted_disjoint (avoid : Bool) (pl : TPlaylist)
    (s : Finset Int) (hne : s ≠ ∅)
    (hdisj : ∀ t ∈ s, t ∉ list_playlist_track_ids pl) :
    tidal_add_tracks_by_ids pl ((s.sort (· ≤ ·)).map some) avoid =
      ({ pl with tracks := pl.tracks ++
          (dedupPO (s.sort (· ≤ ·))).map some },
        chunks100 (dedupPO (s.sort (· ≤ ·)))) := by
  have hids : ((s.sort (· ≤ ·)).map some).filterMap id = s.sort (· ≤ ·) :=
    filterMap_id_map_some _
  have hsne : s.sort (· ≤ ·) ≠ [] := by
    intro h
    apply hne
    have h2 := Finset.sort_toFinset (α := Int) (· ≤ ·) s
    rw [h] at h2
    simpa using h2.symm
  have hie : (s.sort (· ≤ ·)).isEmpty = false := by
    cases h2 : s.sort (· ≤ ·) with
    | nil => exact absurd h2 hsne
    | cons x xs => rfl
  have hfil : (s.sort (· ≤ ·)).filter
      (fun t => !(list_playlist_track_ids pl).elem t) = s.sort (· ≤ ·) := by
    apply List.filter_eq_self.mpr
    intro t ht
    have hts : t ∈ s := (Finset.mem_sort (α := Int) (· ≤ ·)).mp ht
    have hnm := hdisj t hts
    simp [hnm]
  rw [tidal_add_tracks_by_ids]
  simp only [hids, hie, Bool.false_eq_true, if_false]
  cases avoid with
  | false =>
    simp only [Bool.false_eq_true, if_false, hie]
    rw [tidal_client_add_tracks_eq]
  | true =>
    simp only [if_true, hfil, hie, Bool.false_eq_true, if_false]
    rw [tidal_client_add_tracks_eq]

theorem sync_single_core_spec (avoid : Bool) (a b : TPlaylist) :
    ((sync_single_core avoid a b).callsA.flatten).toFinset =
      ((list_playlist_track_ids a).toFinset ∪
        (list_playlist_track_ids b).toFinset) \
        (list_playlist_track_ids a).toFinset ∧
    ((sync_single_core avoid a b).callsB.flatten).toFinset =
      ((list_playlist_track_ids a).toFinset ∪
        (list_playlist_track_ids b).toFinset) \
        (list_playlist_track_ids b).toFinset ∧
    (list_playlist_track_ids (sync_single_core avoid a b).plA).toFinset =
      (list_playlist_track_ids a).toFinset ∪
        (list_playlist_track_ids b).toFinset ∧
    (list_playlist_track_ids (sync_single_core avoid a b).plB).toFinset =
      (list_playlist_track_ids a).toFinset ∪
        (list_playlist_track_ids b).toFinset := by
  have key : ∀ (pl : TPlaylist) (s : Finset Int),
      (∀ t ∈ s, t ∉ list_playlist_track_ids pl) →
      ((if s ≠ ∅ then
          tidal_add_tracks_by_ids pl ((s.sort (· ≤ ·)).map some) avoid
        else (pl, [])).2.flatten.toFinset = s ∧
       (list_playlist_track_ids
         (if s ≠ ∅ then
            tidal_add_tracks_by_ids pl ((s.sort (· ≤ ·)).map some) avoid
          else (pl, [])).1).toFinset =
         (list_playlist_track_ids pl).toFinset ∪ s) := by
    intro pl s hdisj
    by_cases hs : s = ∅
    · rw [if_neg (by simpa using hs)]
      constructor
      · simp [hs]
      · simp [hs]
    · rw [if_pos hs, tidal_add_sorted_disjoint avoid pl s hs hdisj]
      constructor
      · simp only [chunks100_flatten, dedupPO_toFinset]
        exact Finset.sort_toFinset _ s
      · simp only [list_playlist_track_ids, List.filterMap_append,
          filterMap_id_map_some, List.toFinset_append]
        rw [dedupPO_toFinset]
        rw [Finset.sort_toFinset _ s]
  by_cases h0 : (list_playlist_track_ids a).toFinset = ∅ ∧
      (list_playlist_track_ids b).toFinset = ∅
  · have hc : sync_single_core avoid a b = ⟨a, b, [], []⟩ := by
      rw [sync_single_core, if_pos h0]
    rw [hc]
    simp [h0.1, h0.2]
  · have hc : sync_single_core avoid a b =
        ⟨(if ((list_playlist_track_ids a).toFinset ∪
              (list_playlist_track_ids b).toFinset) \
              (list_playlist_track_ids a).toFinset ≠ ∅ then
            tidal_add_tracks_by_ids a
              (((((list_playlist_track_ids a).toFinset ∪
                  (list_playlist_track_ids b).toFinset) \
                  (list_playlist_track_ids a).toFinset).sort (· ≤ ·)).map some)
              avoid
          else (a, [])).1,
         (if ((list_playlist_track_ids a).toFinset ∪
              (list_playlist_track_ids b).toFinset) \
              (list_playlist_track_ids b).toFinset ≠ ∅ then
            tidal_add_tracks_by_ids b
              (((((list_playlist_track_ids a).toFinset ∪
                  (list_playlist_track_ids b).toFinset) \
                  (list_playlist_track_ids b).toFinset).sort (· ≤ ·)).map some)
              avoid
          else (b, [])).1,
         (if ((list_playlist_track_ids a).toFinset ∪
              (list_playlist_track_ids b).toFinset) \
              (list_playlist_track_ids a).toFinset ≠ ∅ then
            tidal_add_tracks_by_ids a
              (((((list_playlist_track_ids a).toFinset ∪
                  (list_playlist_track_ids b).toFinset) \
                  (list_playlist_track_ids a).toFinset).sort (· ≤ ·)).map some)
              avoid
          else (a, [])).2,
         (if ((list_playlist_track_ids a).toFinset ∪
              (list_playlist_track_ids b).toFinset) \
              (list_playlist_track_ids b).toFinset ≠ ∅ then
            tidal_add_tracks_by_ids b
              (((((list_playlist_track_ids a).toFinset ∪
                  (list_playlist_track_ids b).toFinset) \
                  (list_playlist_track_ids b).toFinset).sort (· ≤ ·)).map some)
              avoid
          else (b, [])).2⟩ := by
      rw [sync_single_core, if_neg h0]
    obtain ⟨k1A, k2A⟩ := key a
      (((list_playlist_track_ids a).toFinset ∪
        (list_playlist_track_ids b).toFinset) \
        (list_playlist_track_ids a).toFinset)
      (fun t ht => by
        rw [Finset.mem_sdiff] at ht
        intro hmem
        exact ht.2 (List.mem_toFinset.mpr hmem))
    obtain ⟨k1B, k2B⟩ := key b
      (((list_playlist_track_ids a).toFinset ∪
        (list_playlist_track_ids b).toFinset) \
        (list_playlist_track_ids b).toFinset)
      (fun t ht => by
        rw [Finset.mem_sdiff] at ht
        intro hmem
        exact ht.2 (List.mem_toFinset.mpr hmem))
    rw [hc]
    refine ⟨k1A, k1B, ?_, ?_⟩
    · rw [k2A, Finset.union_sdiff_self_eq_union, ← Finset.union_assoc,
        Finset.union_self]
    · rw [k2B]
      rw [show (list_playlist_track_ids b).toFinset ∪
          (((list_playlist_track_ids a).toFinset ∪
            (list_playlist_track_ids b).toFinset) \
            (list_playlist_track_ids b).toFinset) =
          (list_playlist_track_ids b).toFinset ∪
            ((list_playlist_track_ids a).toFinset ∪
              (list_playlist_track_ids b).toFinset) from
        Finset.union_sdiff_self_eq_union]
      rw [Finset.union_comm (list_playlist_track_ids b).toFinset _,
        Finset.union_assoc, Finset.union_self]

/-- C2: for a playlist name found in both accounts (lookup modelled from
the spec, as `get_playlist_by_title` is not defined in the sources), one
reconciliation run with all insertions succeeding pushes into A exactly
`(ids_a ∪ ids_b) \ ids_a`, into B exactly `(ids_a ∪ ids_b) \ ids_b`, and
leaves both playlists holding the union `ids_a ∪ ids_b`. -/
theorem C2_reconcile_union (avoid : Bool) (accA accB : List TPlaylist)
    (title : Str) (a b : TPlaylist)
    (ha : get_playlist_by_title accA title = some a)
    (hb : get_playlist_by_title accB title = some b) :
    sync_single_playlist avoid accA accB title =
      some (sync_single_core avoid a b) ∧
    ((sync_single_core avoid a b).callsA.flatten).toFinset =
      ((list_playlist_track_ids a).toFinset ∪
        (list_playlist_track_ids b).toFinset) \
        (list_playlist_track_ids a).toFinset ∧
    ((sync_single_core avoid a b).callsB.flatten).toFinset =
      ((list_playlist_track_ids a).toFinset ∪
        (list_playlist_track_ids b).toFinset) \
        (list_playlist_track_ids b).toFinset ∧
    (list_playlist_track_ids (sync_single_core avoid a b).plA).toFinset =
      (list_playlist_track_ids a).toFinset ∪
        (list_playlist_track_ids b).toFinset ∧
    (list_playlist_track_ids (sync_single_core avoid a b).plB).toFinset =
      (list_playlist_track_ids a).toFinset ∪
        (list_playlist_track_ids b).toFinset := by
  obtain ⟨k1, k2, k3, k4⟩ := sync_single_core_spec avoid a b
  refine ⟨?_, k1, k2, k3, k4⟩
  rw [sync_single_playlist, ha, hb]

/-- C2 witness: the spec's Roadtrip scenario — `{1,2,3}` and `{3,4}`
reconcile to `{1,2,3,4}` on both sides, with `{4}` pushed into A and
`{1,2}` pushed into B. -/
theorem C2_reconcile_union_witness :
    sync_single_playlist true
      [⟨some "Roadtrip".toList, [some 1, some 2, some 3]⟩]
      [⟨some "Roadtrip".toList, [some 3, some 4]⟩] "Roadtrip".toList =
      some (sync_single_core true
        ⟨some "Roadtrip".toList, [some 1, some 2, some 3]⟩
        ⟨some "Roadtrip".toList, [some 3, some 4]⟩) ∧
    ((sync_single_core true
        ⟨some "Roadtrip".toList, [some 1, some 2, some 3]⟩
        ⟨some "Roadtrip".toList, [some 3, some 4]⟩).callsA.flatten).toFinset =
      ({4} : Finset Int) ∧
    ((sync_single_core true
        ⟨some "Roadtrip".toList, [some 1, some 2, some 3]⟩
        ⟨some "Roadtrip".toList, [some 3, some 4]⟩).callsB.flatten).toFinset =
      ({1, 2} : Finset Int) ∧
    (list_playlist_track_ids (sync_single_core true
        ⟨some "Roadtrip".toList, [some 1, some 2, some 3]⟩
        ⟨some "Roadtrip".toList, [some 3, some 4]⟩).plA).toFinset =
      ({1, 2, 3, 4} : Finset Int) ∧
    (list_playlist_track_ids (sync_single_core true
        ⟨some "Roadtrip".toList, [some 1, some 2, some 3]⟩
        ⟨some "Roadtrip".toList, [some 3, some 4]⟩).plB).toFinset =
      ({1, 2, 3, 4} : Finset Int) := by
  have h := C2_reconcile_union true
    [⟨some "Roadtrip".toList, [some 1, some 2, some 3]⟩]
    [⟨some "Roadtrip".toList, [some 3, some 4]⟩] "Roadtrip".toList
    ⟨some "Roadtrip".toList, [some 1, some 2, some 3]⟩
    ⟨some "Roadtrip".toList, [some 3, some 4]⟩ (by decide) (by decide)
  exact ⟨h.1, h.2.1.trans (by decide), h.2.2.1.trans (by decide),
    h.2.2.2.1.trans (by decide), h.2.2.2.2.trans (by decide)⟩
